import Mathlib

/-
  Shallow embedding of the mymail SMTP engine (github.com/mpdroog/mymail).

  Embedded units:
  - smtpd server Session command handlers (HELO/EHLO/MAIL/RCPT/DATA/RSET/
    STARTTLS/AUTH) from the session source, where the two-return-value
    variant of the code (the one passing `auth` into ProcessEmail) is the
    embedded one;
  - Server.ProcessEmail, AuthenticatePlain, AuthenticateLogin;
  - the queue processor processEmail / handlePermanentFailure /
    generateBounce with the storage queue as an explicit list of entries;
  - the relay client sendDirect MX logic.

  Modelling conventions:
  - Go strings are Lean String values; Go []byte values are List Nat
    (one Nat per byte); strings.ToUpper / ToLower / EqualFold / TrimSpace
    are modelled on their ASCII behaviour;
  - file and network effects are made explicit: delivery attempts, MX
    lookups and AUTH continuation line reads are oracle parameters,
    storage writes become an effect list or an explicit queue list;
  - Go time.Time / time.Duration values are Int nanoseconds.
-/

namespace MyMail

/-! ### Go string helpers (ASCII model of the strings package) -/

/-- strings.ToUpper, ASCII model. -/
def goToUpper (s : String) : String :=
  String.mk (s.toList.map Char.toUpper)

/-- strings.ToLower, ASCII model. -/
def goToLower (s : String) : String :=
  String.mk (s.toList.map Char.toLower)

/-- strings.EqualFold, ASCII model: case-insensitive equality. -/
def eqFold (a b : String) : Bool :=
  goToLower a == goToLower b

/-- strings.TrimSpace, ASCII whitespace model. -/
def goTrimSpace (s : String) : String :=
  String.mk (((s.toList.dropWhile Char.isWhitespace).reverse.dropWhile
    Char.isWhitespace).reverse)

/-- strings.TrimPrefix: drop `pre` when it heads `s`, else `s` unchanged. -/
def goTrimPre (s pre : String) : String :=
  if pre.toList.isPrefixOf s.toList then s.drop pre.length else s

/-- strings.Split with a one-character separator (the only form the
embedded code uses, on "@" and NUL). -/
def splitOnChar (sep : Char) : List Char → List (List Char)
  | [] => [[]]
  | c :: rest =>
    if c = sep then [] :: splitOnChar sep rest
    else
      match splitOnChar sep rest with
      | [] => [[c]]
      | h :: t => (c :: h) :: t

/-- strings.SplitN(s, " ", 2): the part before the first space and,
when a space exists, the remainder after it. -/
def splitN2 (s : String) : String × Option String :=
  match s.toList.findIdx? (· == ' ') with
  | none => (s, none)
  | some i => (String.mk (s.toList.take i), some (String.mk (s.toList.drop (i + 1))))

/-! ### Configuration and session state -/

/-- The smtpd config.Config fields the embedded code reads.
MaxSize is int64 (Int here); MaxRecipients is a Go int, modelled as Nat
(every deployed configuration is non-negative). -/
structure Config where
  hostname : String
  maxSizeStr : String
  maxSize : Int
  maxRecipients : Nat
  tlsCert : String
  tlsKey : String
  localDomains : List String
  enableWhitelist : Bool
  whitelistEmails : List String
  rejectMsg : String
deriving DecidableEq

/-- Per-connection Session state: the envelope fields plus the tls and auth
flags. The Go struct's conn/reader/writer/remoteAddr/server handles carry
no protocol state and are omitted. -/
structure SessionState where
  helo : String
  mailFrom : String
  rcptTo : List String
  data : List Nat
  tls : Bool
  auth : Bool
deriving DecidableEq

/-- NewSession: all envelope fields empty, no TLS, unauthenticated. -/
def initialSession : SessionState :=
  { helo := "", mailFrom := "", rcptTo := [], data := [], tls := false, auth := false }

/-! ### Address parsing (Session.extractEmail, getDomain, isLocalDomain) -/

/-- The plain-address fallback branch of Session.extractEmail: lowercase the
trimmed argument and require an @ sign. -/
def extractPlain (arg : String) : String :=
  let a := goToLower (goTrimSpace arg)
  if a.toList.contains '@' then a else ""

/-- Session.extractEmail: take the text between the first < and the first >
when both exist in that order (lowercased), else the plain form. -/
def extractEmail (arg : String) : String :=
  let cs := arg.toList
  match cs.findIdx? (· == '<'), cs.findIdx? (· == '>') with
  | some st, some en =>
      if st < en then
        String.mk (((cs.drop (st + 1)).take (en - st - 1)).map Char.toLower)
      else extractPlain arg
  | _, _ => extractPlain arg

/-- getDomain (server package): strings.Split on @ must yield exactly two
parts; none models the "invalid email" error. -/
def getDomainE (email : String) : Option String :=
  match splitOnChar '@' email.toList with
  | [_, d] => some (String.mk d)
  | _ => none

/-- Session.isLocalDomain / Server.isLocalDomain: any configured local
domain equal under EqualFold. -/
def isLocalDomain (cfg : Config) (domain : String) : Bool :=
  cfg.localDomains.any (fun d => eqFold d domain)

/-- Session.isSenderWhitelisted (suffix-match variant): any whitelist entry
that is a suffix of the address. -/
def isSenderWhitelisted (cfg : Config) (email : String) : Bool :=
  cfg.whitelistEmails.any (fun w => w.toList.isSuffixOf email.toList)

/-! ### Routing decision (Server.ProcessEmail) -/

/-- A storage write performed by ProcessEmail: a local-delivery file or an
outbound queue entry. (Go field names From/To; `from` is a Lean keyword,
so sender/rcpt.) -/
inductive Effect where
  | storeLocal (recipient sender : String) (data : List Nat)
  | queueRelay (sender recipient : String) (data : List Nat)
deriving DecidableEq

/-- The errors ProcessEmail itself produces: getDomain's invalid-email
error and the "Cannot relay without auth" error. -/
inductive PErr where
  | invalidEmail
  | relayDenied
deriving DecidableEq

/-- Server.ProcessEmail(from, to, data, auth): per recipient resolve the
domain (error aborts), store locally when the domain is local, otherwise
require auth (else the relay error) and queue for relay. Disk writes are
modelled as always succeeding; the returned list is the writes performed
before the first error, in order. -/
def ProcessEmail (cfg : Config) (sender : String) (data : List Nat) (auth : Bool) :
    List String → List Effect × Option PErr
  | [] => ([], none)
  | r :: rest =>
    match getDomainE r with
    | none => ([], some .invalidEmail)
    | some d =>
      if isLocalDomain cfg d then
        let rec' := ProcessEmail cfg sender data auth rest
        (.storeLocal r sender data :: rec'.1, rec'.2)
      else if !auth then ([], some .relayDenied)
      else
        let rec' := ProcessEmail cfg sender data auth rest
        (.queueRelay sender r data :: rec'.1, rec'.2)

/-! ### Command handlers -/

/-- Session.handleHELO: reply code paired with the next state. -/
def handleHELO (st : SessionState) (arg : String) : SessionState × List Nat :=
  if arg = "" then (st, [501])
  else ({ st with helo := arg }, [250])

/-- Session.handleEHLO (hostname-checking variant); the capability list is
one multi-line 250 reply. -/
def handleEHLO (cfg : Config) (st : SessionState) (arg : String) : SessionState × List Nat :=
  if arg = "" then (st, [501])
  else if arg ≠ cfg.hostname then (st, [501])
  else ({ st with helo := arg }, [250])

/-- Session.handleMAIL: HELO required (503), parse the address from the
upper-cased argument, whitelist check for unauthenticated senders, then
start a fresh transaction. -/
def handleMAIL (cfg : Config) (st : SessionState) (arg : String) : SessionState × List Nat :=
  if st.helo = "" then (st, [503])
  else
    let a := goTrimSpace (goTrimPre (goToUpper arg) "FROM:")
    let email := extractEmail a
    if email = "" then (st, [501])
    else if cfg.enableWhitelist && !st.auth && !(isSenderWhitelisted cfg email) then
      (st, [550])
    else
      ({ st with mailFrom := email, rcptTo := [], data := [] }, [250])

/-- Session.handleRCPT: MAIL required (503), recipient cap (452), address
parse (501), domain resolution (550 on error), relay authorization (550),
then append. -/
def handleRCPT (cfg : Config) (st : SessionState) (arg : String) : SessionState × List Nat :=
  if st.mailFrom = "" then (st, [503])
  else if cfg.maxRecipients ≤ st.rcptTo.length then (st, [452])
  else
    let a := goTrimSpace (goTrimPre (goToUpper arg) "TO:")
    let email := extractEmail a
    if email = "" then (st, [501])
    else
      match getDomainE email with
      | none => (st, [550])
      | some d =>
        if !(isLocalDomain cfg d) && !st.auth then (st, [550])
        else ({ st with rcptTo := st.rcptTo ++ [email] }, [250])

/-- The dot-unstuffing step of Session.readData: a line longer than one
byte starting with a dot (byte 46) loses that first byte. -/
def unstuffLine : List Nat → List Nat
  | [] => []
  | c :: rest => if c = 46 ∧ rest ≠ [] then rest else c :: rest

/-- Session.readData over the connection's pending lines: a lone-dot line
terminates, every other line is unstuffed and stored with CRLF appended;
running out of lines is the read error. -/
def readData : List (List Nat) → Option (List Nat)
  | [] => none
  | l :: rest =>
    if l = [46] then some []
    else
      match readData rest with
      | none => none
      | some d => some (unstuffLine l ++ 13 :: 10 :: d)

/-- Session.handleDATA: RCPT required (503), 354, read the body (451 on
read error), size cap (552), route via ProcessEmail (451 on routing
error), and clear the transaction on the 250 success path. -/
def handleDATA (cfg : Config) (st : SessionState) (input : List (List Nat)) :
    SessionState × List Nat × List Effect :=
  if st.rcptTo.length = 0 then (st, [503], [])
  else
    match readData input with
    | none => (st, [354, 451], [])
    | some d =>
      if (d.length : Int) > cfg.maxSize then (st, [354, 552], [])
      else
        let st1 := { st with data := d }
        let pr := ProcessEmail cfg st.mailFrom d st.auth st.rcptTo
        match pr.2 with
        | some _ => (st1, [354, 451], pr.1)
        | none =>
          ({ st1 with mailFrom := "", rcptTo := [], data := [] }, [354, 250], pr.1)

/-- Session.handleRSET. -/
def handleRSET (st : SessionState) : SessionState × List Nat :=
  ({ st with mailFrom := "", rcptTo := [], data := [] }, [250])

/-- Session.handleSTARTTLS. The certificate load and the handshake are
oracle booleans; the final Bool is whether the session loop continues
(a failed handshake returns the error and the loop drops the client).
On upgrade the reader and writer are re-wrapped and helo/mailFrom/rcptTo
are reset. -/
def handleSTARTTLS (cfg : Config) (st : SessionState) (loadOk handshakeOk : Bool) :
    SessionState × List Nat × Bool :=
  if st.tls then (st, [503], true)
  else if cfg.tlsCert = "" then (st, [502], true)
  else if !loadOk then (st, [454], true)
  else if !handshakeOk then (st, [220], false)
  else
    ({ st with tls := true, helo := "", mailFrom := "", rcptTo := [] }, [220], true)

/-! ### Authentication (Server.AuthenticatePlain / AuthenticateLogin) -/

/-- Bytes of an ASCII string (Go string-to-[]byte conversion). -/
def bytesOfStr (s : String) : List Nat :=
  s.toList.map Char.toNat

/-- The value of one base64 alphabet character (StdEncoding). -/
def b64val (c : Char) : Option Nat :=
  if 'A' ≤ c ∧ c ≤ 'Z' then some (c.toNat - 65)
  else if 'a' ≤ c ∧ c ≤ 'z' then some (c.toNat - 97 + 26)
  else if '0' ≤ c ∧ c ≤ '9' then some (c.toNat - 48 + 52)
  else if c = '+' then some 62
  else if c = '/' then some 63
  else none

/-- Decode whole base64 quanta: four characters give three bytes, with a
padded final quantum giving one or two; padding is only legal at the end
and any other shape is an error, as in Go's StdEncoding. -/
def b64quanta : List Char → Option (List Nat)
  | [] => some []
  | c1 :: c2 :: c3 :: c4 :: rest =>
    match b64val c1, b64val c2 with
    | some v1, some v2 =>
      if c3 = '=' ∧ c4 = '=' ∧ rest = [] then
        some [v1 * 4 + v2 / 16]
      else if c4 = '=' ∧ rest = [] then
        match b64val c3 with
        | some v3 => some [v1 * 4 + v2 / 16, v2 % 16 * 16 + v3 / 4]
        | none => none
      else
        match b64val c3, b64val c4 with
        | some v3, some v4 =>
          match b64quanta rest with
          | some bs => some ((v1 * 4 + v2 / 16) :: (v2 % 16 * 16 + v3 / 4) :: (v3 % 4 * 64 + v4) :: bs)
          | none => none
        | _, _ => none
    | _, _ => none
  | _ => none

/-- base64.StdEncoding.DecodeString: carriage returns and newlines are
skipped, the rest must be whole quanta. -/
def b64decode (s : String) : Option (List Nat) :=
  b64quanta (s.toList.filter (fun c => !(c == '\r' || c == '\n')))

/-- strings.Split(decoded, NUL) on the decoded byte string. -/
def splitOnZero : List Nat → List (List Nat)
  | [] => [[]]
  | b :: rest =>
    if b = 0 then [] :: splitOnZero rest
    else
      match splitOnZero rest with
      | [] => [[b]]
      | h :: t => (b :: h) :: t

/-- The Go users map (username bytes to password bytes) as an association
list; lookup returns the stored password when the key is present. -/
def lookupUser (users : List (List Nat × List Nat)) (u : List Nat) : Option (List Nat) :=
  match users with
  | [] => none
  | (k, v) :: rest => if k = u then some v else lookupUser rest u

/-- Server.AuthenticatePlain: base64-decode, split on NUL, require exactly
three fields, and compare the second and third against the users table. -/
def AuthenticatePlain (users : List (List Nat × List Nat)) (credentials : String) : Bool :=
  match b64decode credentials with
  | none => false
  | some decoded =>
    match splitOnZero decoded with
    | [_, username, password] =>
      match lookupUser users username with
      | some stored => stored == password
      | none => false
    | _ => false

/-- Server.AuthenticateLogin (the (bool, error) variant): none models a
base64 decode error being returned; otherwise the table comparison. -/
def AuthenticateLogin (users : List (List Nat × List Nat)) (uB64 pB64 : String) :
    Option Bool :=
  match b64decode uB64 with
  | none => none
  | some u =>
    match b64decode pB64 with
    | none => none
    | some p =>
      some (match lookupUser users u with
            | some stored => stored == p
            | none => false)

/-- The per-command oracle inputs a Session command can consume: the DATA
body lines, the AUTH PLAIN continuation line, the AUTH LOGIN responses
(none is a read error), and the STARTTLS certificate-load and handshake
outcomes. -/
structure CmdInput where
  dataLines : List (List Nat)
  authLine : Option String
  loginUser : Option String
  loginPass : Option String
  tlsLoadOk : Bool
  tlsHandshakeOk : Bool
deriving DecidableEq

/-- The tail of Session.handleAuthPlain after the credential string is in
hand: 235 and the auth flag on success, 535 on failure. `pre` is the 334
continuation prompt when one was sent. -/
def authPlainFinish (users : List (List Nat × List Nat)) (st : SessionState)
    (pre : List Nat) (cred : String) : SessionState × List Nat × Bool :=
  if AuthenticatePlain users cred then ({ st with auth := true }, pre ++ [235], true)
  else (st, pre ++ [535], true)

/-- Session.handleAuthPlain: an inline initial response is used directly;
otherwise an empty 334 challenge is sent and the continuation line read
(a read error aborts the session loop). -/
def handleAuthPlain (users : List (List Nat × List Nat)) (st : SessionState)
    (rest : Option String) (contLine : Option String) : SessionState × List Nat × Bool :=
  match rest with
  | some cred => authPlainFinish users st [] cred
  | none =>
    match contLine with
    | none => (st, [334], false)
    | some cred => authPlainFinish users st [334] cred

/-- Session.handleAuthLogin (the (bool, error) variant). After the two 334
challenges the code logs err.Error() unconditionally; when both fields
decode, AuthenticateLogin returns a nil error and that call dereferences
nil and panics, killing the session before any further reply — modelled
as an abort. A decode error yields ok=false and the 535 reply. -/
def handleAuthLogin (users : List (List Nat × List Nat)) (st : SessionState)
    (userLine passLine : Option String) : SessionState × List Nat × Bool :=
  match userLine with
  | none => (st, [334], false)
  | some u =>
    match passLine with
    | none => (st, [334, 334], false)
    | some p =>
      match AuthenticateLogin users u p with
      | none => (st, [334, 334, 535], true)
      | some _ => (st, [334, 334], false)

/-- Session.handleAUTH: 503 when already authenticated, dispatch on the
upper-cased mechanism, 504 otherwise. -/
def handleAUTH (users : List (List Nat × List Nat)) (st : SessionState) (arg : String)
    (inp : CmdInput) : SessionState × List Nat × Bool :=
  if st.auth then (st, [503], true)
  else
    let parts := splitN2 arg
    let mech := goToUpper parts.1
    if mech = "PLAIN" then handleAuthPlain users st parts.2 inp.authLine
    else if mech = "LOGIN" then handleAuthLogin users st inp.loginUser inp.loginPass
    else (st, [504], true)

/-! ### The session loop step (Session.Handle dispatch) -/

/-- One iteration of the Session.Handle loop on a non-empty line: split
into verb and argument, dispatch on the upper-cased verb. Returns the next
state, the reply codes written, the storage writes performed, and whether
the loop continues (false on QUIT and on handler aborts). -/
def execLine (cfg : Config) (users : List (List Nat × List Nat)) (st : SessionState)
    (line : String) (inp : CmdInput) : SessionState × List Nat × List Effect × Bool :=
  let parts := splitN2 line
  let arg := parts.2.getD ""
  let cmd := goToUpper parts.1
  if cmd = "HELO" then
    let r := handleHELO st arg
    (r.1, r.2, [], true)
  else if cmd = "EHLO" then
    let r := handleEHLO cfg st arg
    (r.1, r.2, [], true)
  else if cmd = "MAIL" then
    let r := handleMAIL cfg st arg
    (r.1, r.2, [], true)
  else if cmd = "RCPT" then
    let r := handleRCPT cfg st arg
    (r.1, r.2, [], true)
  else if cmd = "DATA" then
    let r := handleDATA cfg st inp.dataLines
    (r.1, r.2.1, r.2.2, true)
  else if cmd = "RSET" then
    let r := handleRSET st
    (r.1, r.2, [], true)
  else if cmd = "NOOP" then (st, [250], [], true)
  else if cmd = "QUIT" then (st, [221], [], false)
  else if cmd = "STARTTLS" then
    let r := handleSTARTTLS cfg st inp.tlsLoadOk inp.tlsHandshakeOk
    (r.1, r.2.1, [], r.2.2)
  else if cmd = "AUTH" then
    let r := handleAUTH users st arg inp
    (r.1, r.2.1, [], r.2.2)
  else (st, [502], [], true)

/-- The Session.Handle loop over a whole connection script: empty lines are
skipped, each other line runs through execLine until a command ends the
loop or the script is exhausted; result is the final session state. -/
def runSession (cfg : Config) (users : List (List Nat × List Nat)) :
    SessionState → List (String × CmdInput) → SessionState
  | st, [] => st
  | st, (line, inp) :: rest =>
    if line = "" then runSession cfg users st rest
    else
      let r := execLine cfg users st line inp
      if r.2.2.2 then runSession cfg users r.1 rest else r.1

/-! ### Queue processor (queue package) and storage queue -/

/-- queue constants: MaxRetries and RetryInterval (15 minutes, in Int
nanoseconds as Go time.Duration). -/
def maxRetries : Nat := 5

/-- 15 * time.Minute in nanoseconds. -/
def retryIntervalNs : Int := 15 * 60 * 1000000000

/-- storage.QueuedEmail. Go field names From/To become sender/rcpt
(`from` is a Lean keyword); timestamps are Int nanoseconds. -/
structure QueuedEmail where
  id : String
  sender : String
  rcpt : String
  data : List Nat
  createdAt : Int
  attempts : Nat
  lastError : String
  nextRetry : Int
deriving DecidableEq

/-- Processor.generateBounce: the fixed text, the recipient and failure
reason, then the original message bytes. -/
def generateBounce (email : QueuedEmail) : List Nat :=
  bytesOfStr ("From: MAILER-DAEMON@" ++ email.sender ++ "\r\n"
    ++ "To: " ++ email.sender ++ "\r\n"
    ++ "Subject: Mail delivery failed: returning message to sender\r\n"
    ++ "Content-Type: text/plain; charset=utf-8\r\n"
    ++ "\r\n"
    ++ "This message was created automatically by mail delivery software.\r\n\r\n"
    ++ "A message that you sent could not be delivered to one or more of its\r\n"
    ++ "recipients. This is a permanent error.\r\n\r\n"
    ++ "Recipient: " ++ email.rcpt ++ "\r\n"
    ++ "Error: " ++ email.lastError ++ "\r\n"
    ++ "\r\n"
    ++ "--- Original message follows ---\r\n\r\n") ++ email.data

/-- Storage.UpdateQueuedEmail on the queue-as-list: os.Create overwrites
the entry file with this id when it exists and creates it otherwise. -/
def updateQueuedEmail (e : QueuedEmail) (q : List QueuedEmail) : List QueuedEmail :=
  if q.any (fun x => x.id == e.id) then
    q.map (fun x => if x.id == e.id then e else x)
  else q ++ [e]

/-- Storage.RemoveFromQueue: delete the entry file with this id. -/
def removeFromQueue (id : String) (q : List QueuedEmail) : List QueuedEmail :=
  q.filter (fun x => x.id != id)

/-- Storage.QueueForRelay: a fresh entry with attempts 0 and nextRetry
now; the generated collision-resistant id is the `newId` parameter. -/
def queueForRelay (newId sender rcpt : String) (data : List Nat) (now : Int)
    (q : List QueuedEmail) : List QueuedEmail :=
  q ++ [{ id := newId, sender := sender, rcpt := rcpt, data := data,
          createdAt := now, attempts := 0, lastError := "", nextRetry := now }]

/-- Processor.processEmail acting on the queue: `outcome` is the
client.Send result (none is success). Success removes the entry; failure
increments attempts and sets lastError, then either the permanent-failure
path (bounce queued to the original sender with empty envelope-from, entry
removed) or the retry path (nextRetry pushed out by attempts times the
base interval and the entry rewritten). -/
def processOne (now : Int) (newId : String) (outcome : Option String)
    (email : QueuedEmail) (q : List QueuedEmail) : List QueuedEmail :=
  match outcome with
  | none => removeFromQueue email.id q
  | some errMsg =>
    let e1 : QueuedEmail := { email with attempts := email.attempts + 1, lastError := errMsg }
    if maxRetries ≤ e1.attempts then
      removeFromQueue email.id (queueForRelay newId "" email.sender (generateBounce e1) now q)
    else
      updateQueuedEmail { e1 with nextRetry := now + (e1.attempts : Int) * retryIntervalNs } q

/-! ### Relay client (client package, direct MX delivery) -/

/-- net.MX: host and preference (uint16). -/
structure MXRec where
  host : String
  pref : Nat
deriving DecidableEq

/-- strings.TrimSuffix(host, "."). -/
def trimDot (h : String) : String :=
  if ['.'].isSuffixOf h.toList then h.dropRight 1 else h

/-- getDomain (client package): empty string on a malformed address. -/
def getDomainStr (email : String) : String :=
  match splitOnChar '@' email.toList with
  | [_, d] => String.mk d
  | _ => ""

/-- Insertion step of the preference sort: sort.Slice with the
less-by-preference comparator, embedded as an insertion sort (one of the
sorted-by-Pref permutations sort.Slice may produce). -/
def insertMX (m : MXRec) : List MXRec → List MXRec
  | [] => [m]
  | x :: xs => if x.pref ≤ m.pref then x :: insertMX m xs else m :: x :: xs

/-- The MX candidate list sorted ascending by preference. -/
def sortMX (l : List MXRec) : List MXRec :=
  l.foldr insertMX []

/-- The host loop of sendDirect: try each record's dot-trimmed host in
order, stop at the first successful transaction; returns whether one
succeeded and the hosts attempted, in order. `attempt` is the
sendToHost outcome oracle. -/
def tryHosts (attempt : String → Bool) : List MXRec → Bool × List String
  | [] => (false, [])
  | mx :: rest =>
    let h := trimDot mx.host
    if attempt h then (true, [h])
    else
      let r := tryHosts attempt rest
      (r.1, h :: r.2)

/-- The results of Client.sendDirect. -/
inductive SendOutcome where
  | delivered
  | errInvalidRecipient
  | errMxLookup
  | errAllHostsFailed
deriving DecidableEq

/-- Client.sendDirect: resolve the recipient domain (error when
malformed), look up MX records (`none` is a lookup error), fall back to
the bare domain when the record list is empty, sort ascending by
preference and try hosts until one full transaction succeeds. Returns the
outcome and the hosts attempted. -/
def sendDirect (rcpt : String) (mxResult : Option (List MXRec)) (attempt : String → Bool) :
    SendOutcome × List String :=
  let d := getDomainStr rcpt
  if d = "" then (.errInvalidRecipient, [])
  else
    match mxResult with
    | none => (.errMxLookup, [])
    | some mxs =>
      let records := if mxs.length = 0 then [{ host := d, pref := 0 }] else mxs
      let r := tryHosts attempt (sortMX records)
      if r.1 then (.delivered, r.2) else (.errAllHostsFailed, r.2)

/-! ### Witness fixtures -/

/-- A concrete configuration used by the witness theorems. -/
def wcfg : Config :=
  { hostname := "mx.test", maxSizeStr := "10MB", maxSize := 100,
    maxRecipients := 2, tlsCert := "cert.pem", tlsKey := "key.pem",
    localDomains := ["Example.COM"], enableWhitelist := false,
    whitelistEmails := [], rejectMsg := "rejected" }

/-- A session that has completed HELO and MAIL. -/
def wstMail : SessionState :=
  { initialSession with helo := "mx.test", mailFrom := "a@b.c" }

/-! ### Claim theorems -/

/-- Claim C2: a MAIL command while helo is empty replies 503, a RCPT
command while mailFrom is empty replies 503, and a DATA command while
rcptTo is empty replies 503; in each case the session state is returned
unchanged (and DATA performs no storage write). -/
theorem c2_command_ordering (cfg : Config) (st : SessionState) (arg : String)
    (input : List (List Nat)) :
    (st.helo = "" → handleMAIL cfg st arg = (st, [503])) ∧
    (st.mailFrom = "" → handleRCPT cfg st arg = (st, [503])) ∧
    (st.rcptTo = [] → handleDATA cfg st input = (st, [503], [])) := by
  refine ⟨fun h => ?_, fun h => ?_, fun h => ?_⟩
  · simp [handleMAIL, h]
  · simp [handleRCPT, h]
  · simp [handleDATA, h]

/-- Witness for C2 at the fresh session state. -/
theorem c2_command_ordering_witness :
    handleMAIL wcfg initialSession "FROM:<a@b.c>" = (initialSession, [503]) ∧
    handleRCPT wcfg initialSession "TO:<a@b.c>" = (initialSession, [503]) ∧
    handleDATA wcfg initialSession [[46]] = (initialSession, [503], []) := by
  have h1 := c2_command_ordering wcfg initialSession "FROM:<a@b.c>" [[46]]
  have h2 := c2_command_ordering wcfg initialSession "TO:<a@b.c>" [[46]]
  exact ⟨h1.1 rfl, h2.2.1 rfl, h1.2.2 rfl⟩

/-- Claim C5: during DATA body reading, a lone dot line terminates the
read contributing no bytes; a line longer than one byte that begins with
a dot is stored with exactly its first byte removed; any other line is
stored unchanged; each stored line is followed by CRLF (bytes 13, 10). -/
theorem c5_dot_unstuffing (rest : List (List Nat)) (l : List Nat) :
    readData ([46] :: rest) = some [] ∧
    (l ≠ [46] → readData (l :: rest) =
      Option.map (fun d => unstuffLine l ++ 13 :: 10 :: d) (readData rest)) ∧
    (1 < l.length → l.head? = some 46 → unstuffLine l = l.tail) ∧
    (¬ (1 < l.length ∧ l.head? = some 46) → unstuffLine l = l) := by
  refine ⟨by simp [readData], fun h => ?_, fun h1 h2 => ?_, fun h => ?_⟩
  · rw [readData]
    simp only [if_neg h]
    cases readData rest <;> rfl
  · match l, h2 with
    | 46 :: cs, _ =>
      match cs, h1 with
      | c :: cs', _ => simp [unstuffLine]
  · match l with
    | [] => rfl
    | c :: cs =>
      rw [unstuffLine, if_neg]
      rintro ⟨hc, hcs⟩
      exact h ⟨by cases cs with | nil => exact absurd rfl hcs | cons d ds => simp, by simp [hc]⟩

/-- Witness for C5 on the stuffed line 46 46 104 (".." ++ "h"). -/
theorem c5_dot_unstuffing_witness :
    readData ([46] :: [[46, 46, 104]]) = some [] ∧
    readData ([46, 46, 104] :: [[46]]) =
      Option.map (fun d => unstuffLine [46, 46, 104] ++ 13 :: 10 :: d) (readData [[46]]) ∧
    unstuffLine [46, 46, 104] = [46, 104] ∧
    unstuffLine [104, 105] = [104, 105] := by
  have h := c5_dot_unstuffing [[46, 46, 104]] [46, 46, 104]
  have h2 := c5_dot_unstuffing [[46]] [46, 46, 104]
  have h3 := c5_dot_unstuffing [] [104, 105]
  exact ⟨h.1, h2.2.1 (by decide), h2.2.2.1 (by decide) rfl, h3.2.2.2 (by decide)⟩

/-- Claim C7: a successful STARTTLS upgrade sets tls and resets helo,
mailFrom and rcptTo to empty, changing no other field (the record-update
form of the conclusion leaves data and auth those of the prior state); a
MAIL command sent right after the upgrade replies 503. -/
theorem c7_starttls_reset (cfg : Config) (st : SessionState) (loadOk hsOk : Bool)
    (arg : String) (h1 : st.tls = false) (h2 : cfg.tlsCert ≠ "")
    (h3 : loadOk = true) (h4 : hsOk = true) :
    handleSTARTTLS cfg st loadOk hsOk =
      ({ st with tls := true, helo := "", mailFrom := "", rcptTo := [] }, [220], true) ∧
    handleMAIL cfg { st with tls := true, helo := "", mailFrom := "", rcptTo := [] } arg =
      ({ st with tls := true, helo := "", mailFrom := "", rcptTo := [] }, [503]) := by
  subst h3 h4
  refine ⟨?_, ?_⟩
  · simp [handleSTARTTLS, h1, h2]
  · simp [handleMAIL]

/-- Witness for C7 at a session holding data bytes and an authenticated
flag, both of which survive the upgrade. -/
theorem c7_starttls_reset_witness :
    handleSTARTTLS wcfg
        { helo := "mx.test", mailFrom := "a@b.c", rcptTo := ["r@example.com"],
          data := [7], tls := false, auth := true } true true =
      ({ helo := "", mailFrom := "", rcptTo := [], data := [7],
         tls := true, auth := true }, [220], true) ∧
    handleMAIL wcfg
        { helo := "", mailFrom := "", rcptTo := [], data := [7],
          tls := true, auth := true } "FROM:<a@b.c>" =
      ({ helo := "", mailFrom := "", rcptTo := [], data := [7],
         tls := true, auth := true }, [503]) :=
  c7_starttls_reset wcfg
    { helo := "mx.test", mailFrom := "a@b.c", rcptTo := ["r@example.com"],
      data := [7], tls := false, auth := true } true true "FROM:<a@b.c>"
    rfl (by decide) rfl rfl

/-- Counterexample to C4 as stated: a DATA command that reaches the 354
stage and then hits the read-error failure path (451) leaves mailFrom,
rcptTo and data unchanged rather than clearing them. -/
theorem c4_counterexample :
    handleDATA wcfg { wstMail with rcptTo := ["r@example.com"] } [] =
      ({ wstMail with rcptTo := ["r@example.com"] }, [354, 451], []) ∧
    ({ wstMail with rcptTo := ["r@example.com"] } : SessionState).mailFrom ≠ "" := by
  exact ⟨rfl, by decide⟩

/-- Claim C4 amended: a DATA command that reaches the 354 stage clears
mailFrom, rcptTo and data only on the success path (reply 250); on the
read-error (451) and oversize (552) failure paths the whole state is
returned unchanged, and on the routing-failure path (451) only the data
field changes (it holds the read bytes) while mailFrom and rcptTo are
kept. -/
theorem c4_data_clearing (cfg : Config) (st : SessionState) (input : List (List Nat))
    (hr : st.rcptTo ≠ []) :
    (readData input = none → handleDATA cfg st input = (st, [354, 451], [])) ∧
    (∀ d, readData input = some d → (d.length : Int) > cfg.maxSize →
      handleDATA cfg st input = (st, [354, 552], [])) ∧
    (∀ d, readData input = some d → ¬ ((d.length : Int) > cfg.maxSize) →
      (ProcessEmail cfg st.mailFrom d st.auth st.rcptTo).2 ≠ none →
      (handleDATA cfg st input).1 = { st with data := d }) ∧
    (∀ d, readData input = some d → ¬ ((d.length : Int) > cfg.maxSize) →
      (ProcessEmail cfg st.mailFrom d st.auth st.rcptTo).2 = none →
      handleDATA cfg st input =
        ({ st with mailFrom := "", rcptTo := [], data := [] }, [354, 250],
          (ProcessEmail cfg st.mailFrom d st.auth st.rcptTo).1)) := by
  have hlen : ¬ st.rcptTo.length = 0 := by simpa using hr
  refine ⟨fun h => ?_, fun d h hs => ?_, fun d h hs hp => ?_, fun d h hs hp => ?_⟩
  · simp [handleDATA, hlen, h]
  · simp [handleDATA, hlen, h, hs]
  · rcases he : (ProcessEmail cfg st.mailFrom d st.auth st.rcptTo).2 with _ | e
    · exact absurd he hp
    · simp [handleDATA, hlen, h, hs, he]
  · simp [handleDATA, hlen, h, hs, hp]

/-- Witness for the amended C4 on the read-error path and the success
path. -/
theorem c4_data_clearing_witness :
    handleDATA wcfg { wstMail with rcptTo := ["r@example.com"] } [] =
      ({ wstMail with rcptTo := ["r@example.com"] }, [354, 451], []) ∧
    handleDATA wcfg { wstMail with rcptTo := ["r@example.com"] } [[104], [46]] =
      ({ wstMail with mailFrom := "", rcptTo := [], data := [] }, [354, 250],
        [Effect.storeLocal "r@example.com" "a@b.c" [104, 13, 10]]) := by
  have h1 := c4_data_clearing wcfg { wstMail with rcptTo := ["r@example.com"] } []
    (by decide)
  have h2 := c4_data_clearing wcfg { wstMail with rcptTo := ["r@example.com"] }
    [[104], [46]] (by decide)
  refine ⟨h1.1 rfl, ?_⟩
  have := h2.2.2.2 [104, 13, 10] rfl (by decide) (by decide)
  simpa using this

/-- A command-input fixture for witness scripts: no DATA lines, no AUTH
continuation lines, TLS oracle successes. -/
def winp : CmdInput :=
  { dataLines := [], authLine := none, loginUser := none, loginPass := none,
    tlsLoadOk := true, tlsHandshakeOk := true }

/-! ### Helper lemmas: every command keeps rcptTo within the cap -/

lemma handleHELO_rcpt (st : SessionState) (arg : String) :
    (handleHELO st arg).1.rcptTo = st.rcptTo := by
  unfold handleHELO; split <;> rfl

lemma handleEHLO_rcpt (cfg : Config) (st : SessionState) (arg : String) :
    (handleEHLO cfg st arg).1.rcptTo = st.rcptTo := by
  unfold handleEHLO; split <;> [rfl; (split <;> rfl)]

lemma handleMAIL_rcpt (cfg : Config) (st : SessionState) (arg : String) :
    (handleMAIL cfg st arg).1.rcptTo = st.rcptTo ∨ (handleMAIL cfg st arg).1.rcptTo = [] := by
  unfold handleMAIL
  dsimp only
  split
  · exact Or.inl rfl
  · split
    · exact Or.inl rfl
    · split
      · exact Or.inl rfl
      · exact Or.inr rfl

lemma handleRCPT_cases (cfg : Config) (st : SessionState) (arg : String) :
    (handleRCPT cfg st arg).1 = st ∨
    (st.rcptTo.length < cfg.maxRecipients ∧
      ∃ email, (handleRCPT cfg st arg).1 = { st with rcptTo := st.rcptTo ++ [email] }) := by
  by_cases h1 : st.mailFrom = ""
  · left; simp [handleRCPT, h1]
  by_cases h2 : cfg.maxRecipients ≤ st.rcptTo.length
  · left; simp [handleRCPT, h1, h2]
  by_cases h3 : extractEmail (goTrimSpace (goTrimPre (goToUpper arg) "TO:")) = ""
  · left; simp [handleRCPT, h1, h2, h3]
  rcases hd : getDomainE (extractEmail (goTrimSpace (goTrimPre (goToUpper arg) "TO:")))
    with _ | d
  · left; simp [handleRCPT, h1, h2, h3, hd]
  by_cases h4 : (!(isLocalDomain cfg d) && !st.auth) = true
  · left; simp [handleRCPT, h1, h2, h3, hd, h4]
  · right
    refine ⟨by omega, extractEmail (goTrimSpace (goTrimPre (goToUpper arg) "TO:")), ?_⟩
    simp [handleRCPT, h1, h2, h3, hd, h4]

lemma handleDATA_rcpt (cfg : Config) (st : SessionState) (input : List (List Nat)) :
    (handleDATA cfg st input).1.rcptTo = st.rcptTo ∨
    (handleDATA cfg st input).1.rcptTo = [] := by
  unfold handleDATA
  dsimp only
  split
  · exact Or.inl rfl
  · split
    · exact Or.inl rfl
    · split
      · exact Or.inl rfl
      · split
        · exact Or.inl rfl
        · exact Or.inr rfl

lemma handleSTARTTLS_rcpt (cfg : Config) (st : SessionState) (a b : Bool) :
    (handleSTARTTLS cfg st a b).1.rcptTo = st.rcptTo ∨
    (handleSTARTTLS cfg st a b).1.rcptTo = [] := by
  unfold handleSTARTTLS
  split
  · exact Or.inl rfl
  · split
    · exact Or.inl rfl
    · split
      · exact Or.inl rfl
      · split
        · exact Or.inl rfl
        · exact Or.inr rfl

lemma authPlainFinish_rcpt (users : List (List Nat × List Nat)) (st : SessionState)
    (pre : List Nat) (cred : String) :
    (authPlainFinish users st pre cred).1.rcptTo = st.rcptTo := by
  unfold authPlainFinish; split <;> rfl

lemma handleAUTH_rcpt (users : List (List Nat × List Nat)) (st : SessionState)
    (arg : String) (inp : CmdInput) :
    (handleAUTH users st arg inp).1.rcptTo = st.rcptTo := by
  unfold handleAUTH
  dsimp only
  split
  · rfl
  · split
    · unfold handleAuthPlain
      rcases (splitN2 arg).2 with _ | cred
      · rcases inp.authLine with _ | c
        · rfl
        · exact authPlainFinish_rcpt users st [334] c
      · exact authPlainFinish_rcpt users st [] cred
    · split
      · unfold handleAuthLogin
        rcases inp.loginUser with _ | u
        · rfl
        · rcases inp.loginPass with _ | p
          · rfl
          · rcases hA : AuthenticateLogin users u p with _ | b <;> simp [hA]
      · rfl

set_option maxHeartbeats 1000000 in
lemma execLine_rcpt_bound (cfg : Config) (users : List (List Nat × List Nat))
    (st : SessionState) (line : String) (inp : CmdInput)
    (h : st.rcptTo.length ≤ cfg.maxRecipients) :
    (execLine cfg users st line inp).1.rcptTo.length ≤ cfg.maxRecipients := by
  unfold execLine
  dsimp only
  split_ifs
  · rw [handleHELO_rcpt]; exact h
  · rw [handleEHLO_rcpt]; exact h
  · rcases handleMAIL_rcpt cfg st ((splitN2 line).2.getD "") with he | he <;> rw [he]
    · exact h
    · simp
  · rcases handleRCPT_cases cfg st ((splitN2 line).2.getD "") with he | ⟨hlt, e, he⟩ <;>
      rw [he]
    · exact h
    · simpa using hlt
  · rcases handleDATA_rcpt cfg st inp.dataLines with he | he <;> rw [he]
    · exact h
    · simp
  · simp [handleRSET]
  · exact h
  · exact h
  · rcases handleSTARTTLS_rcpt cfg st inp.tlsLoadOk inp.tlsHandshakeOk with he | he <;>
      rw [he]
    · exact h
    · simp
  · rw [handleAUTH_rcpt]; exact h
  · exact h

lemma runSession_rcpt_bound (cfg : Config) (users : List (List Nat × List Nat))
    (script : List (String × CmdInput)) :
    ∀ st : SessionState, st.rcptTo.length ≤ cfg.maxRecipients →
      (runSession cfg users st script).rcptTo.length ≤ cfg.maxRecipients := by
  induction script with
  | nil => intro st h; exact h
  | cons p rest ih =>
    intro st h
    rcases p with ⟨line, inp⟩
    rw [runSession]
    dsimp only
    split
    · exact ih st h
    · split
      · exact ih _ (execLine_rcpt_bound cfg users st line inp h)
      · exact execLine_rcpt_bound cfg users st line inp h

/-- Claim C6: over any whole-connection command script from the fresh
session, rcptTo never exceeds the configured MaxRecipients; and a RCPT
command arriving when rcptTo already holds MaxRecipients entries replies
452 with the session state unchanged. -/
theorem c6_recipient_cap (cfg : Config) (users : List (List Nat × List Nat))
    (script : List (String × CmdInput)) (st : SessionState) (arg : String) :
    (runSession cfg users initialSession script).rcptTo.length ≤ cfg.maxRecipients ∧
    (st.mailFrom ≠ "" → st.rcptTo.length = cfg.maxRecipients →
      handleRCPT cfg st arg = (st, [452])) := by
  constructor
  · exact runSession_rcpt_bound cfg users script initialSession (by simp [initialSession])
  · intro h1 h2
    simp [handleRCPT, h1, Nat.le_of_eq h2.symm]

/-- Witness for C6: a script that attempts three RCPTs under a cap of two,
and the 452 reply at a session already holding the cap. -/
theorem c6_recipient_cap_witness :
    (runSession wcfg []
        initialSession
        [("HELO x", winp), ("MAIL FROM:<a@b.c>", winp),
         ("RCPT TO:<r1@example.com>", winp), ("RCPT TO:<r2@example.com>", winp),
         ("RCPT TO:<r3@example.com>", winp)]).rcptTo.length ≤ wcfg.maxRecipients ∧
    handleRCPT wcfg { wstMail with rcptTo := ["r1@example.com", "r2@example.com"] }
        "TO:<r3@example.com>" =
      ({ wstMail with rcptTo := ["r1@example.com", "r2@example.com"] }, [452]) := by
  have h := c6_recipient_cap wcfg []
    [("HELO x", winp), ("MAIL FROM:<a@b.c>", winp),
     ("RCPT TO:<r1@example.com>", winp), ("RCPT TO:<r2@example.com>", winp),
     ("RCPT TO:<r3@example.com>", winp)]
    { wstMail with rcptTo := ["r1@example.com", "r2@example.com"] } "TO:<r3@example.com>"
  exact ⟨h.1, h.2 (by decide) (by decide)⟩

/-- Claim C9: PLAIN authentication fails when the base64 decode errors or
the decoded payload does not split on NUL into exactly three fields,
whatever the users table holds. -/
theorem c9_plain_malformed (users : List (List Nat × List Nat)) (cred : String) :
    (b64decode cred = none → AuthenticatePlain users cred = false) ∧
    (∀ bs, b64decode cred = some bs → (splitOnZero bs).length ≠ 3 →
      AuthenticatePlain users cred = false) := by
  constructor
  · intro h; simp [AuthenticatePlain, h]
  · intro bs h hl
    rcases e : splitOnZero bs with _ | ⟨a, _ | ⟨b, _ | ⟨c, _ | ⟨d, t⟩⟩⟩⟩
    · simp [AuthenticatePlain, h, e]
    · simp [AuthenticatePlain, h, e]
    · simp [AuthenticatePlain, h, e]
    · rw [e] at hl; exact absurd rfl hl
    · simp [AuthenticatePlain, h, e]

/-- Users table for the authentication witnesses: username "ab" (bytes
97 98) with password "ab". -/
def wusers : List (List Nat × List Nat) := [([97, 98], [97, 98])]

/-- Witness for C9: an undecodable credential string, and the credential
base64("ab") whose payload is a substring of a valid username/password
yet splits into one field. -/
theorem c9_plain_malformed_witness :
    AuthenticatePlain wusers "!!!!" = false ∧
    AuthenticatePlain wusers "YWI=" = false := by
  have h1 := c9_plain_malformed wusers "!!!!"
  have h2 := c9_plain_malformed wusers "YWI="
  exact ⟨h1.1 rfl, h2.2 [97, 98] rfl (by decide)⟩

/-- Claim C1: the two relay-authorization gates. At RCPT time an
unauthenticated session asking for a recipient whose domain resolves
and is not local gets 550 with no state change; at DATA-routing time
ProcessEmail with authenticated=false never performs a queue write, and
returns the relay error whenever every recipient's domain resolves and
some recipient is non-local; recipients whose domains are all local are
stored locally whatever the auth flag. -/
theorem c1_relay_gate (cfg : Config) (st : SessionState) (arg : String)
    (sender : String) (data : List Nat) (tos : List String) (d : String) :
    (st.auth = false → st.mailFrom ≠ "" → st.rcptTo.length < cfg.maxRecipients →
      getDomainE (extractEmail (goTrimSpace (goTrimPre (goToUpper arg) "TO:"))) = some d →
      isLocalDomain cfg d = false →
      handleRCPT cfg st arg = (st, [550])) ∧
    ((ProcessEmail cfg sender data false tos).1.all
        (fun e => match e with | .queueRelay _ _ _ => false | _ => true) = true) ∧
    ((∀ r ∈ tos, getDomainE r ≠ none) →
      (∃ r ∈ tos, ∃ dr, getDomainE r = some dr ∧ isLocalDomain cfg dr = false) →
      (ProcessEmail cfg sender data false tos).2 = some PErr.relayDenied) ∧
    (∀ auth : Bool, (∀ r ∈ tos, ∃ dr, getDomainE r = some dr ∧ isLocalDomain cfg dr = true) →
      ProcessEmail cfg sender data auth tos =
        (tos.map (fun r => Effect.storeLocal r sender data), none)) := by
  refine ⟨fun ha hm hlen hd hloc => ?_, ?_, ?_, ?_⟩
  · have hne : extractEmail (goTrimSpace (goTrimPre (goToUpper arg) "TO:")) ≠ "" := by
      intro h0
      rw [h0, show getDomainE "" = none from rfl] at hd
      exact Option.noConfusion hd
    simp [handleRCPT, hm, Nat.not_le.mpr hlen, hne, hd, hloc, ha]
  · induction tos with
    | nil => rfl
    | cons r rest ih =>
      rw [ProcessEmail]
      rcases getDomainE r with _ | dr
      · rfl
      · by_cases hl : isLocalDomain cfg dr <;> simp [hl, ih]
  · induction tos with
    | nil =>
      intro _ hex
      rcases hex with ⟨r, hr, _⟩
      exact absurd hr (List.not_mem_nil r)
    | cons r rest ih =>
      intro hall hex
      rcases hn : getDomainE r with _ | dr
      · exact absurd hn (hall r (by simp))
      · by_cases hl : isLocalDomain cfg dr = true
        · have hex' : ∃ r' ∈ rest, ∃ dr', getDomainE r' = some dr' ∧
              isLocalDomain cfg dr' = false := by
            rcases hex with ⟨r', hr', dr', hd', hnl⟩
            rcases List.mem_cons.mp hr' with rfl | hmem
            · rw [hn] at hd'
              injection hd' with hh
              subst hh
              rw [hl] at hnl
              exact absurd hnl (by simp)
            · exact ⟨r', hmem, dr', hd', hnl⟩
          have hrec := ih (fun r' h' => hall r' (List.mem_cons_of_mem _ h')) hex'
          simp [ProcessEmail, hn, hl, hrec]
        · have hl' : isLocalDomain cfg dr = false := by simpa using hl
          simp [ProcessEmail, hn, hl']
  · intro auth hall
    induction tos with
    | nil => rfl
    | cons r rest ih =>
      rcases hall r (by simp) with ⟨dr, hd, hl⟩
      have hrec := ih (fun r' h' => hall r' (List.mem_cons_of_mem _ h'))
      simp [ProcessEmail, hd, hl, hrec]

/-- Witness for C1 at the fixture config (local domain Example.COM). -/
theorem c1_relay_gate_witness :
    handleRCPT wcfg wstMail "TO:<joe@other.org>" = (wstMail, [550]) ∧
    ((ProcessEmail wcfg "s@x.y" [1] false ["j@example.com", "k@other.org"]).1.all
        (fun e => match e with | .queueRelay _ _ _ => false | _ => true) = true) ∧
    (ProcessEmail wcfg "s@x.y" [1] false ["j@example.com", "k@other.org"]).2 =
      some PErr.relayDenied ∧
    ProcessEmail wcfg "s@x.y" [1] true ["j@example.com"] =
      ([Effect.storeLocal "j@example.com" "s@x.y" [1]], none) := by
  have h := c1_relay_gate wcfg wstMail "TO:<joe@other.org>" "s@x.y" [1]
    ["j@example.com", "k@other.org"] "other.org"
  have h2 := c1_relay_gate wcfg wstMail "TO:<joe@other.org>" "s@x.y" [1]
    ["j@example.com"] "other.org"
  refine ⟨h.1 rfl (by decide) (by decide) (by decide) (by decide), h.2.1, ?_, ?_⟩
  · exact h.2.2.1 (by decide) ⟨"k@other.org", by decide, "other.org", by decide⟩
  · refine h2.2.2.2 true ?_
    intro r hr
    rw [List.mem_singleton] at hr
    subst hr
    exact ⟨"example.com", by decide⟩

/-! ### Queue lemmas and Claim C3 -/

lemma updateQueuedEmail_present (e : QueuedEmail) (q : List QueuedEmail)
    (h : (q.any fun x => x.id == e.id) = true) :
    e ∈ updateQueuedEmail e q ∧ (updateQueuedEmail e q).length = q.length := by
  unfold updateQueuedEmail
  rw [if_pos h]
  constructor
  · rcases List.any_eq_true.mp h with ⟨x, hx, hbe⟩
    exact List.mem_map.mpr ⟨x, hx, by rw [if_pos hbe]⟩
  · simp

/-- Claim C3: a failed delivery whose incremented attempt count is below
the maximum rewrites the entry with attempts+1, the error text and
nextRetry = now + attempts * base interval, keeping it in the queue (same
length, updated entry present); a failed delivery that reaches the
maximum, run on the queue holding just that entry, leaves exactly one
record: the bounce, addressed to the original sender with an empty
envelope-from and attempts reset. -/
theorem c3_retry_and_bounce (now : Int) (newId msg : String) (email : QueuedEmail)
    (q : List QueuedEmail) :
    (email.attempts + 1 < maxRetries →
      processOne now newId (some msg) email q =
        updateQueuedEmail
          { email with
            attempts := email.attempts + 1, lastError := msg,
            nextRetry := now + ((email.attempts + 1 : Nat) : Int) * retryIntervalNs } q ∧
      ((q.any fun x => x.id == email.id) = true →
        ({ email with
            attempts := email.attempts + 1, lastError := msg,
            nextRetry := now + ((email.attempts + 1 : Nat) : Int) * retryIntervalNs } ∈
          processOne now newId (some msg) email q) ∧
        (processOne now newId (some msg) email q).length = q.length)) ∧
    (maxRetries ≤ email.attempts + 1 → newId ≠ email.id →
      processOne now newId (some msg) email [email] =
        [{ id := newId, sender := "", rcpt := email.sender,
           data := generateBounce
             { email with attempts := email.attempts + 1, lastError := msg },
           createdAt := now, attempts := 0, lastError := "", nextRetry := now }]) := by
  constructor
  · intro hlt
    have hcond : ¬ maxRetries ≤ email.attempts + 1 := Nat.not_le.mpr hlt
    have heq : processOne now newId (some msg) email q =
        updateQueuedEmail
          { email with
            attempts := email.attempts + 1, lastError := msg,
            nextRetry := now + ((email.attempts + 1 : Nat) : Int) * retryIntervalNs } q := by
      simp [processOne, hcond]
    refine ⟨heq, fun hany => ?_⟩
    rw [heq]
    exact updateQueuedEmail_present _ q (by simpa using hany)
  · intro hge hid
    simp [processOne, hge, queueForRelay, removeFromQueue, hid]

/-- The queue entry used by the C3 witness. -/
def wqe : QueuedEmail :=
  { id := "id1", sender := "s@a", rcpt := "r@b", data := [7], createdAt := 5,
    attempts := 0, lastError := "", nextRetry := 0 }

/-- Witness for C3: one failure at attempts 0 yields the retried entry;
a failure at attempts 4 on the singleton queue yields exactly the
bounce. -/
theorem c3_retry_and_bounce_witness :
    processOne 1000 "nid" (some "boom") wqe [wqe] =
      [{ wqe with attempts := 1, lastError := "boom", nextRetry := 900000001000 }] ∧
    processOne 1000 "nid" (some "boom") { wqe with attempts := 4 }
        [{ wqe with attempts := 4 }] =
      [{ id := "nid", sender := "", rcpt := "s@a",
         data := generateBounce { wqe with attempts := 5, lastError := "boom" },
         createdAt := 1000, attempts := 0, lastError := "", nextRetry := 1000 }] := by
  have h1 := c3_retry_and_bounce 1000 "nid" "boom" wqe [wqe]
  have h2 := c3_retry_and_bounce 1000 "nid" "boom" { wqe with attempts := 4 }
    [{ wqe with attempts := 4 }]
  constructor
  · exact ((h1.1 (by decide)).1).trans (by decide)
  · exact (h2.2 (by decide) (by decide)).trans rfl

/-! ### NUL-splitting lemmas and Claim C10 -/

lemma splitOnZero_no_zero (p : List Nat) (hp : 0 ∉ p) : splitOnZero p = [p] := by
  induction p with
  | nil => rfl
  | cons b rest ih =>
    have hb : ¬ b = 0 := fun h => hp (h ▸ List.mem_cons_self b rest)
    have hrest : 0 ∉ rest := fun h => hp (List.mem_cons_of_mem b h)
    rw [splitOnZero, if_neg hb, ih hrest]

lemma splitOnZero_append (a l : List Nat) (h : List Nat) (t : List (List Nat))
    (ha : 0 ∉ a) (hl : splitOnZero l = h :: t) :
    splitOnZero (a ++ l) = (a ++ h) :: t := by
  induction a with
  | nil => simpa using hl
  | cons b bs ih =>
    have hb : ¬ b = 0 := fun hh => ha (hh ▸ List.mem_cons_self b bs)
    have hbs : 0 ∉ bs := fun hh => ha (List.mem_cons_of_mem b hh)
    rw [List.cons_append, splitOnZero, if_neg hb, ih hbs]
    rfl

lemma splitOnZero_zero_cons (l : List Nat) : splitOnZero (0 :: l) = [] :: splitOnZero l := by
  rw [splitOnZero, if_pos rfl]

lemma splitOnZero_triple (a u p : List Nat) (ha : 0 ∉ a) (hu : 0 ∉ u) (hp : 0 ∉ p) :
    splitOnZero (a ++ 0 :: (u ++ 0 :: p)) = [a, u, p] := by
  have h2 : splitOnZero (0 :: p) = [] :: [p] := by
    rw [splitOnZero_zero_cons, splitOnZero_no_zero p hp]
  have h3 : splitOnZero (u ++ 0 :: p) = u :: [p] := by
    have := splitOnZero_append u (0 :: p) [] [p] hu h2
    simpa using this
  have h4 : splitOnZero (0 :: (u ++ 0 :: p)) = [] :: u :: [p] := by
    rw [splitOnZero_zero_cons, h3]
  have h5 := splitOnZero_append a (0 :: (u ++ 0 :: p)) [] (u :: [p]) ha h4
  simpa using h5

/-- Claim C10: PLAIN authentication ignores the authorization-identity
field: two credentials decoding to payloads that differ only in the
(NUL-free) authzid field authenticate identically, whatever the users
table holds. -/
theorem c10_authzid_irrelevant (users : List (List Nat × List Nat))
    (a1 a2 u p : List Nat) (s1 s2 : String)
    (ha1 : 0 ∉ a1) (ha2 : 0 ∉ a2) (hu : 0 ∉ u) (hp : 0 ∉ p)
    (h1 : b64decode s1 = some (a1 ++ 0 :: (u ++ 0 :: p)))
    (h2 : b64decode s2 = some (a2 ++ 0 :: (u ++ 0 :: p))) :
    AuthenticatePlain users s1 = AuthenticatePlain users s2 := by
  simp [AuthenticatePlain, h1, h2, splitOnZero_triple a1 u p ha1 hu hp,
    splitOnZero_triple a2 u p ha2 hu hp]

/-- Witness for C10: base64("A" NUL "u" NUL "p") and
base64("B" NUL "u" NUL "p") authenticate identically. -/
theorem c10_authzid_irrelevant_witness :
    AuthenticatePlain wusers "QQB1AHA=" = AuthenticatePlain wusers "QgB1AHA=" :=
  c10_authzid_irrelevant wusers [65] [66] [117] [112] "QQB1AHA=" "QgB1AHA="
    (by decide) (by decide) (by decide) (by decide) (by decide) (by decide)

/-! ### MX sorting and host-loop lemmas, Claim C8 -/

lemma mem_insertMX (m y : MXRec) (l : List MXRec) (h : y ∈ insertMX m l) :
    y = m ∨ y ∈ l := by
  induction l with
  | nil =>
    rw [insertMX] at h
    exact Or.inl (by simpa using h)
  | cons x xs ih =>
    by_cases hc : x.pref ≤ m.pref
    · rw [insertMX, if_pos hc] at h
      rcases List.mem_cons.mp h with rfl | h'
      · exact Or.inr (List.mem_cons_self _ _)
      · rcases ih h' with rfl | h''
        · exact Or.inl rfl
        · exact Or.inr (List.mem_cons_of_mem _ h'')
    · rw [insertMX, if_neg hc] at h
      rcases List.mem_cons.mp h with rfl | h'
      · exact Or.inl rfl
      · exact Or.inr h'

lemma insertMX_sorted (m : MXRec) (l : List MXRec)
    (h : l.Pairwise (fun a b => a.pref ≤ b.pref)) :
    (insertMX m l).Pairwise (fun a b => a.pref ≤ b.pref) := by
  induction l with
  | nil => simp [insertMX]
  | cons x xs ih =>
    rcases List.pairwise_cons.mp h with ⟨hx, hxs⟩
    by_cases hc : x.pref ≤ m.pref
    · rw [insertMX, if_pos hc]
      refine List.pairwise_cons.mpr ⟨?_, ih hxs⟩
      intro y hy
      rcases mem_insertMX m y xs hy with rfl | h'
      · exact hc
      · exact hx y h'
    · rw [insertMX, if_neg hc]
      have hm : m.pref ≤ x.pref := Nat.le_of_lt (Nat.lt_of_not_le hc)
      refine List.pairwise_cons.mpr ⟨?_, h⟩
      intro y hy
      rcases List.mem_cons.mp hy with rfl | h'
      · exact hm
      · exact le_trans hm (hx y h')

lemma sortMX_sorted (l : List MXRec) :
    (sortMX l).Pairwise (fun a b => a.pref ≤ b.pref) := by
  induction l with
  | nil => simp [sortMX]
  | cons x xs ih => exact insertMX_sorted x (sortMX xs) ih

lemma insertMX_perm (m : MXRec) (l : List MXRec) : (insertMX m l).Perm (m :: l) := by
  induction l with
  | nil => exact List.Perm.refl _
  | cons x xs ih =>
    by_cases hc : x.pref ≤ m.pref
    · rw [insertMX, if_pos hc]
      exact (ih.cons x).trans (List.Perm.swap m x xs)
    · rw [insertMX, if_neg hc]

lemma sortMX_perm (l : List MXRec) : (sortMX l).Perm l := by
  induction l with
  | nil => exact List.Perm.refl _
  | cons x xs ih => exact (insertMX_perm x (sortMX xs)).trans (ih.cons x)

lemma tryHosts_success (attempt : String → Bool) (l : List MXRec) :
    (tryHosts attempt l).1 = l.any (fun m => attempt (trimDot m.host)) := by
  induction l with
  | nil => rfl
  | cons mx rest ih =>
    by_cases hc : attempt (trimDot mx.host) = true <;> simp [tryHosts, hc, ih]

lemma tryHosts_split (attempt : String → Bool) (l : List MXRec)
    (h : (tryHosts attempt l).1 = true) :
    ∃ pre hst, (tryHosts attempt l).2 = pre ++ [hst] ∧ attempt hst = true ∧
      ∀ x ∈ pre, attempt x = false := by
  induction l with
  | nil => simp [tryHosts] at h
  | cons mx rest ih =>
    by_cases hc : attempt (trimDot mx.host) = true
    · exact ⟨[], trimDot mx.host, by simp [tryHosts, hc], hc, by simp⟩
    · have hr : (tryHosts attempt rest).1 = true := by
        rw [tryHosts] at h
        dsimp only at h
        rwa [if_neg hc] at h
      rcases ih hr with ⟨pre, hst, he, ha, hf⟩
      refine ⟨trimDot mx.host :: pre, hst, ?_, ha, ?_⟩
      · simp [tryHosts, hc, he]
      · intro x hx
        rcases List.mem_cons.mp hx with rfl | hx'
        · simpa using hc
        · exact hf x hx'

lemma tryHosts_all_failed (attempt : String → Bool) (l : List MXRec)
    (h : (tryHosts attempt l).1 = false) :
    (tryHosts attempt l).2 = l.map (fun m => trimDot m.host) ∧
      ∀ x ∈ (tryHosts attempt l).2, attempt x = false := by
  induction l with
  | nil => exact ⟨rfl, by simp [tryHosts]⟩
  | cons mx rest ih =>
    by_cases hc : attempt (trimDot mx.host) = true
    · rw [tryHosts] at h
      dsimp only at h
      rw [if_pos hc] at h
      exact absurd h (by simp)
    · have hr : (tryHosts attempt rest).1 = false := by
        rw [tryHosts] at h
        dsimp only at h
        rwa [if_neg hc] at h
      rcases ih hr with ⟨he, hf⟩
      constructor
      · simp [tryHosts, hc, he]
      · intro x hx
        rw [tryHosts] at hx
        dsimp only at hx
        rw [if_neg hc] at hx
        rcases List.mem_cons.mp hx with rfl | hx'
        · simpa using hc
        · exact hf x hx'

lemma sendDirect_eq (rcpt : String) (mxs : List MXRec) (attempt : String → Bool)
    (hd : getDomainStr rcpt ≠ "") (hm : mxs ≠ []) :
    sendDirect rcpt (some mxs) attempt =
      (if (tryHosts attempt (sortMX mxs)).1 = true then SendOutcome.delivered
       else SendOutcome.errAllHostsFailed, (tryHosts attempt (sortMX mxs)).2) := by
  have hlen : ¬ mxs.length = 0 := by simpa using hm
  by_cases hw : (tryHosts attempt (sortMX mxs)).1 = true <;>
    simp [sendDirect, hd, hlen, hw]

/-- Claim C8: when the MX lookup succeeds with no records, sendDirect
makes exactly one attempt against the bare recipient domain (dot-trimmed,
the identity for domains without a trailing dot); when records exist,
the candidate list is sorted ascending by preference (a permutation of
the lookup result), delivery succeeds exactly when some sorted host
completes, the attempted hosts are the sorted prefix up to and including
the first success with every earlier host failing, and on total failure
every sorted host was attempted and failed. -/
theorem c8_mx_fallback (rcpt : String) (attempt : String → Bool) (mxs : List MXRec)
    (hd : getDomainStr rcpt ≠ "") :
    (sendDirect rcpt (some []) attempt =
      (if attempt (trimDot (getDomainStr rcpt)) then SendOutcome.delivered
       else SendOutcome.errAllHostsFailed, [trimDot (getDomainStr rcpt)])) ∧
    ((['.'].isSuffixOf (getDomainStr rcpt).toList) = false →
      trimDot (getDomainStr rcpt) = getDomainStr rcpt) ∧
    (sortMX mxs).Pairwise (fun a b => a.pref ≤ b.pref) ∧
    (sortMX mxs).Perm mxs ∧
    (mxs ≠ [] →
      ((sendDirect rcpt (some mxs) attempt).1 = SendOutcome.delivered ↔
        ((sortMX mxs).any fun m => attempt (trimDot m.host)) = true) ∧
      ((sendDirect rcpt (some mxs) attempt).1 = SendOutcome.delivered →
        ∃ pre hst, (sendDirect rcpt (some mxs) attempt).2 = pre ++ [hst] ∧
          attempt hst = true ∧ ∀ x ∈ pre, attempt x = false) ∧
      ((sendDirect rcpt (some mxs) attempt).1 = SendOutcome.errAllHostsFailed →
        (sendDirect rcpt (some mxs) attempt).2 =
          (sortMX mxs).map (fun m => trimDot m.host) ∧
        ∀ x ∈ (sendDirect rcpt (some mxs) attempt).2, attempt x = false)) := by
  refine ⟨?_, fun hnd => ?_, sortMX_sorted mxs, sortMX_perm mxs, fun hm => ?_⟩
  · by_cases ha : attempt (trimDot (getDomainStr rcpt)) = true <;>
      simp [sendDirect, hd, sortMX, insertMX, tryHosts, ha]
  · rw [trimDot, if_neg (by rw [hnd]; exact Bool.false_ne_true)]
  · rw [sendDirect_eq rcpt mxs attempt hd hm]
    refine ⟨?_, fun hdel => ?_, fun hfail => ?_⟩
    · by_cases hw : (tryHosts attempt (sortMX mxs)).1 = true
      · simp [hw, tryHosts_success attempt (sortMX mxs) ▸ hw]
      · have := tryHosts_success attempt (sortMX mxs)
        simp only [if_neg hw]
        constructor
        · intro hcontra
          exact absurd hcontra (by decide)
        · intro hany
          exact absurd (this.trans hany) hw
    · by_cases hw : (tryHosts attempt (sortMX mxs)).1 = true
      · simpa using tryHosts_split attempt (sortMX mxs) hw
      · rw [if_neg hw] at hdel
        exact absurd hdel (by simp)
    · by_cases hw : (tryHosts attempt (sortMX mxs)).1 = true
      · rw [if_pos hw] at hfail
        exact absurd hfail (by simp)
      · have hf : (tryHosts attempt (sortMX mxs)).1 = false := by
          simpa using hw
        simpa using tryHosts_all_failed attempt (sortMX mxs) hf

/-- Witness for C8: no-record fallback on the bare domain, and a
two-record lookup where only the lower-preference host (listed second,
with a trailing dot) accepts. -/
theorem c8_mx_fallback_witness :
    sendDirect "j@other.org" (some []) (fun h => h == "mx1.a") =
      (if (fun h => h == "mx1.a") (trimDot (getDomainStr "j@other.org"))
       then SendOutcome.delivered else SendOutcome.errAllHostsFailed,
       [trimDot (getDomainStr "j@other.org")]) ∧
    trimDot (getDomainStr "j@other.org") = getDomainStr "j@other.org" ∧
    (sortMX [⟨"mx2.a", 20⟩, ⟨"mx1.a.", 10⟩]).Pairwise (fun a b => a.pref ≤ b.pref) ∧
    ((sendDirect "j@other.org" (some [⟨"mx2.a", 20⟩, ⟨"mx1.a.", 10⟩])
        (fun h => h == "mx1.a")).1 = SendOutcome.delivered ↔
      ((sortMX [⟨"mx2.a", 20⟩, ⟨"mx1.a.", 10⟩]).any
        fun m => (fun h => h == "mx1.a") (trimDot m.host)) = true) := by
  have h := c8_mx_fallback "j@other.org" (fun h => h == "mx1.a")
    [⟨"mx2.a", 20⟩, ⟨"mx1.a.", 10⟩] (by decide)
  exact ⟨h.1, h.2.1 (by decide), h.2.2.1, (h.2.2.2.2 (by decide)).1⟩

end MyMail
